import Mathlib

/-
Shallow embedding of the historic-usage cache of `aussiebb.py`
(class `UsageHistoryDict` and its collaborators).

Modelling conventions:
- Python strings are Lean `String`s; the two regexes of the class are
  modelled as explicit parsers over the dash-separated groups of the key
  (the anchored regexes only accept dash-separated digit groups, so
  splitting on the dash is equivalent; the `$` anchor is modelled as
  strict end-of-string, and no claim involves keys with a trailing newline).
- `self._history` (a Python dict) is an association list; insertion conses
  at the front, and lookup takes the first match, which gives the same
  observable overwrite semantics as the dict.
- The fetch collaborator `authenticated_get` is a parameter
  `fetch : Int -> Int -> Except e (List Entry)` taking the year and month
  of the endpoint `broadband/SID/usage/YEAR/MONTH`; an `Except.error`
  models a raised HTTP/auth/network exception.
- Python exceptions become the error side of `Except`; because a raised
  exception leaves the receiver object in its state at raise time, every
  operation returns the state alongside the `Except` result.
- `St.fetchCount` instruments the number of calls made to the fetch
  collaborator; it is not Python state.
-/

set_option autoImplicit false

namespace Aussie

/-- Historic usage record (`UsageHistory`): date string plus megabyte counters. -/
structure UsageHistory where
  date : String
  download : Int
  upload : Int
deriving DecidableEq, Repr

/-- One element of the `data` array of a month-history fetch response. -/
structure Entry where
  date : String
  download : Int
  upload : Int
deriving DecidableEq, Repr

/-- Python exceptions that the modelled code can raise. -/
inductive PyErr (ε : Type) where
  | keyError
  | attributeError
  | illegalMonth
  | valueError
  | fetchErr (e : ε)
deriving DecidableEq, Repr

/-- The `self._history` dict: association list from date string to record. -/
abbrev Cache := List (String × UsageHistory)

/-- Membership test and lookup, as `key in self._history` / `self._history[key]`. -/
def Cache.find : Cache → String → Option UsageHistory
  | [], _ => none
  | (k, v) :: rest, key => if key = k then some v else Cache.find rest key

/-- Dict assignment `self._history[key] = value`. -/
def Cache.insert (c : Cache) (k : String) (v : UsageHistory) : Cache :=
  (k, v) :: c

/-- State of a `UsageHistoryDict` plus a fetch-call counter (instrumentation). -/
structure St where
  cache : Cache
  fetchCount : Nat
deriving DecidableEq, Repr

/-- Split a character list at every dash, as `str.split` on the regex groups. -/
def splitDash : List Char → List (List Char)
  | [] => [[]]
  | c :: rest =>
    if c = '-' then [] :: splitDash rest
    else
      match splitDash rest with
      | g :: gs => (c :: g) :: gs
      | [] => [[c]]

/-- Group of `lo` to `hi` decimal digits. -/
def isDigits (l : List Char) (lo hi : Nat) : Bool :=
  lo ≤ l.length && l.length ≤ hi && l.all Char.isDigit

/-- Python `int` on a digit string. -/
def digitsToNat (l : List Char) : Nat :=
  l.foldl (fun acc c => acc * 10 + (c.toNat - 48)) 0

/-- Parser for the lookup-key regex of `__getitem__`:
4-digit year, optional 1-2 digit month, optional 1-2 digit day,
dash-separated and anchored at both ends. Returns the integer groups. -/
def matchGetKey (key : String) : Option (Nat × Option Nat × Option Nat) :=
  match splitDash key.data with
  | [y] => if isDigits y 4 4 then some (digitsToNat y, none, none) else none
  | [y, m] =>
    if isDigits y 4 4 && isDigits m 1 2 then
      some (digitsToNat y, some (digitsToNat m), none)
    else none
  | [y, m, d] =>
    if isDigits y 4 4 && isDigits m 1 2 && isDigits d 1 2 then
      some (digitsToNat y, some (digitsToNat m), some (digitsToNat d))
    else none
  | _ => none

/-- Parser for `_key_regex`: exactly 4-digit year, 2-digit month, 2-digit day. -/
def matchFullKey (key : String) : Option (Nat × Nat × Nat) :=
  match splitDash key.data with
  | [y, m, d] =>
    if isDigits y 4 4 && isDigits m 2 2 && isDigits d 2 2 then
      some (digitsToNat y, digitsToNat m, digitsToNat d)
    else none
  | _ => none

/-- Digit accumulator for `natToChars`; the fuel argument makes the recursion
structural (`n + 1` steps always suffice). -/
def natToCharsCore : Nat → Nat → List Char → List Char
  | 0, _, acc => acc
  | fuel + 1, n, acc =>
    if n < 10 then Char.ofNat (48 + n) :: acc
    else natToCharsCore fuel (n / 10) (Char.ofNat (48 + n % 10) :: acc)

/-- Decimal digits of a natural number, as Python `str` of a nonnegative int. -/
def natToChars (n : Nat) : List Char :=
  natToCharsCore (n + 1) n []

/-- Python format spec `0>2`: zero-pad on the left to width two. -/
def pad2 (n : Nat) : List Char :=
  if n < 10 then '0' :: natToChars n else natToChars n

/-- The `_key_format` template: year as-is, month and day zero-padded to 2. -/
def keyFormat (y m d : Nat) : String :=
  String.mk (natToChars y ++ '-' :: pad2 m ++ '-' :: pad2 d)

/-- Leap-year test of the `calendar` module. -/
def isleap (y : Nat) : Bool :=
  y % 4 == 0 && (y % 100 != 0 || y % 400 == 0)

/-- Day count of a month (1-12), `calendar.mdays` plus the February correction. -/
def monthDays (y m : Nat) : Nat :=
  if m = 2 then (if isleap y then 29 else 28)
  else if m = 4 ∨ m = 6 ∨ m = 9 ∨ m = 11 then 30
  else 31

/-- Days in all years before year `y` of the proleptic Gregorian calendar. -/
def daysBeforeYear (y : Nat) : Nat :=
  365 * (y - 1) + (y - 1) / 4 - (y - 1) / 100 + (y - 1) / 400

/-- Days in the months of year `y` strictly before month `m`. -/
def daysBeforeMonth (y m : Nat) : Nat :=
  (List.range' 1 (m - 1)).foldl (fun acc k => acc + monthDays y k) 0

/-- `datetime.date.toordinal`. -/
def toordinal (y m d : Nat) : Nat :=
  daysBeforeYear y + daysBeforeMonth y m + d

/-- `calendar.weekday`: Monday is 0, Sunday is 6. -/
def pyWeekday (y m d : Nat) : Nat :=
  (toordinal y m d + 6) % 7

/-- `calendar.monthrange year month`: weekday of the first day and day count.
Raises `IllegalMonthError` outside months 1-12, and `ValueError` (through
`datetime.date`) outside years 1-9999. -/
def monthrange {ε : Type} (y m : Nat) : Except (PyErr ε) (Nat × Nat) :=
  if m < 1 ∨ 12 < m then .error .illegalMonth
  else if y < 1 ∨ 9999 < y then .error .valueError
  else .ok (pyWeekday y m 1, monthDays y m)

/-- Billing-period correction of `_try_get_date` (lines 504-509): a day before
the rollover day belongs to the previous calendar month, wrapping the year. -/
def resolveMonth (rolloverDay : Int) (year month day : Nat) : Int × Int :=
  if (day : Int) < rolloverDay then
    if 1 < month then ((year : Int), (month : Int) - 1)
    else ((year : Int) - 1, 12)
  else ((year : Int), (month : Int))

/-- Cache-population loop of `_try_get_date` (lines 517-519): insert every
entry of the fetch response into the cache, in response order. -/
def ingest (entries : List Entry) (c : Cache) : Cache :=
  entries.foldl (fun acc entry =>
    acc.insert entry.date ⟨entry.date, entry.download, entry.upload⟩) c

/-- `UsageHistoryDict._try_get_date`: return the cached record for `key`, or
fetch the resolved billing month, ingest every entry of the response into the
cache, and re-check; `None` when the day is still absent. A key that fails
`_key_regex` raises `AttributeError` (`match.group` on `None`). -/
def tryGetDate {ε : Type} (fetch : Int → Int → Except ε (List Entry))
    (rolloverDay : Int) (st : St) (key : String) :
    Except (PyErr ε) (Option UsageHistory) × St :=
  match st.cache.find key with
  | some v => (.ok (some v), st)
  | none =>
    match matchFullKey key with
    | none => (.error .attributeError, st)
    | some (year, month, day) =>
      match fetch (resolveMonth rolloverDay year month day).1
          (resolveMonth rolloverDay year month day).2 with
      | .error e => (.error (.fetchErr e), ⟨st.cache, st.fetchCount + 1⟩)
      | .ok entries =>
        match (ingest entries st.cache).find key with
        | some v => (.ok (some v), ⟨ingest entries st.cache, st.fetchCount + 1⟩)
        | none => (.ok none, ⟨ingest entries st.cache, st.fetchCount + 1⟩)

/-- Inner day loop of `__getitem__`: probe each day value, appending hits. -/
def runDays {ε : Type} (fetch : Int → Int → Except ε (List Entry))
    (rolloverDay : Int) (year month : Nat) (days : List Nat) (st : St)
    (acc : List UsageHistory) : Except (PyErr ε) (List UsageHistory) × St :=
  match days with
  | [] => (.ok acc, st)
  | d :: rest =>
    match tryGetDate fetch rolloverDay st (keyFormat year month d) with
    | (.error e, st₁) => (.error e, st₁)
    | (.ok usage, st₁) => runDays fetch rolloverDay year month rest st₁ (acc ++ usage.toList)

/-- Month loop of the year branch of `__getitem__`. The day values iterated
are the two components of the `calendar.monthrange` tuple, as in the source. -/
def runMonths {ε : Type} (fetch : Int → Int → Except ε (List Entry))
    (rolloverDay : Int) (year : Nat) (months : List Nat) (st : St)
    (acc : List UsageHistory) : Except (PyErr ε) (List UsageHistory) × St :=
  match months with
  | [] => (.ok acc, st)
  | m :: rest =>
    match monthrange (ε := ε) year m with
    | .error e => (.error e, st)
    | .ok wn =>
      match runDays fetch rolloverDay year m [wn.1, wn.2] st acc with
      | (.error e, st₁) => (.error e, st₁)
      | (.ok acc₁, st₁) => runMonths fetch rolloverDay year rest st₁ acc₁

/-- Year branch of `__getitem__`: `for month in range(1, 12)`. -/
def yearQuery {ε : Type} (fetch : Int → Int → Except ε (List Entry))
    (rolloverDay : Int) (year : Nat) (st : St) :
    Except (PyErr ε) (List UsageHistory) × St :=
  runMonths fetch rolloverDay year (List.range' 1 11) st []

/-- Month branch of `__getitem__`: `for day in calendar.monthrange(year, month)`. -/
def monthQuery {ε : Type} (fetch : Int → Int → Except ε (List Entry))
    (rolloverDay : Int) (year month : Nat) (st : St) :
    Except (PyErr ε) (List UsageHistory) × St :=
  match monthrange (ε := ε) year month with
  | .error e => (.error e, st)
  | .ok wn => runDays fetch rolloverDay year month [wn.1, wn.2] st []

/-- Day branch of `__getitem__`: single `_try_get_date`, listified. -/
def dayQuery {ε : Type} (fetch : Int → Int → Except ε (List Entry))
    (rolloverDay : Int) (year month day : Nat) (st : St) :
    Except (PyErr ε) (List UsageHistory) × St :=
  match tryGetDate fetch rolloverDay st (keyFormat year month day) with
  | (.error e, st₁) => (.error e, st₁)
  | (.ok (some usage), st₁) => (.ok [usage], st₁)
  | (.ok none, st₁) => (.ok [], st₁)

/-- `UsageHistoryDict.__getitem__`. A parsed month or day equal to 0 is falsy
in Python (`if not month`, `if not day`), so it selects the wider branch. -/
def getItem {ε : Type} (fetch : Int → Int → Except ε (List Entry))
    (rolloverDay : Int) (st : St) (key : String) :
    Except (PyErr ε) (List UsageHistory) × St :=
  match matchGetKey key with
  | none => (.error .keyError, st)
  | some (year, none, _) => yearQuery fetch rolloverDay year st
  | some (year, some month, dayOpt) =>
    if month = 0 then yearQuery fetch rolloverDay year st
    else
      match dayOpt with
      | none => monthQuery fetch rolloverDay year month st
      | some day =>
        if day = 0 then monthQuery fetch rolloverDay year month st
        else dayQuery fetch rolloverDay year month day st

/-- `UsageHistoryDict.__setitem__`: insert under the verbatim key when it
matches `_key_regex`, else raise `KeyError`. -/
def setItem {ε : Type} (st : St) (key : String) (value : UsageHistory) :
    Except (PyErr ε) Unit × St :=
  if (matchFullKey key).isSome then (.ok (), ⟨st.cache.insert key value, st.fetchCount⟩)
  else (.error .keyError, st)

/-- One public operation on a `UsageHistoryDict`. -/
inductive Op where
  | get (key : String)
  | set (key : String) (value : UsageHistory)

/-- State reached after one operation (a raised exception leaves the state
the operation had built so far, as in Python). -/
def runOp {ε : Type} (fetch : Int → Int → Except ε (List Entry))
    (rolloverDay : Int) (st : St) : Op → St
  | .get key => (getItem fetch rolloverDay st key).2
  | .set key value => (setItem (ε := ε) st key value).2

/-- State reached after a sequence of operations. -/
def runOps {ε : Type} (fetch : Int → Int → Except ε (List Entry))
    (rolloverDay : Int) (ops : List Op) (st : St) : St :=
  ops.foldl (runOp fetch rolloverDay) st

/-- Every key of the cache matches the full `YYYY-MM-DD` shape. -/
def ValidCache (c : Cache) : Prop :=
  ∀ p ∈ c, (matchFullKey p.1).isSome = true

/-- The fetch collaborator honours the response contract of the spec: every
entry of a successful month-history response carries a `YYYY-MM-DD` date. -/
def GoodFetch {ε : Type} (fetch : Int → Int → Except ε (List Entry)) : Prop :=
  ∀ y m entries, fetch y m = .ok entries →
    ∀ e ∈ entries, (matchFullKey e.date).isSome = true

/-- Probe collaborator: fails every fetch, reporting the year and month it was
asked for, so a run observes exactly which endpoint would have been hit. -/
def pairProbe : Int → Int → Except (Int × Int) (List Entry) :=
  fun y m => .error (y, m)

/-- Collaborator that always answers with an empty month (no billed days). -/
def emptyFetch : Int → Int → Except Unit (List Entry) :=
  fun _ _ => .ok []

/-- Collaborator answering every month query with every day of that calendar
month (the shape a service with rollover day 1 observes). -/
def oracleFetch : Int → Int → Except Unit (List Entry) :=
  fun y m =>
    if 1 ≤ y ∧ 1 ≤ m ∧ m ≤ 12 then
      .ok ((List.range' 1 (monthDays y.toNat m.toNat)).map
        (fun d => ⟨keyFormat y.toNat m.toNat d, 0, 0⟩))
    else .error ()

/-- Collaborator whose June 2024 billing month holds two days. -/
def juneFetch : Int → Int → Except Unit (List Entry) :=
  fun y m =>
    if y = 2024 ∧ m = 6 then .ok [⟨"2024-06-28", 10, 1⟩, ⟨"2024-07-05", 42, 7⟩]
    else .ok []

/-- Collaborator that always answers with one day, 2024-06-28. -/
def sparseFetch : Int → Int → Except Unit (List Entry) :=
  fun _ _ => .ok [⟨"2024-06-28", 5, 6⟩]

/-- Sample record used as a `set` payload. -/
def sampleUsage : UsageHistory := ⟨"2024-01-01", 0, 0⟩

section Lemmas

variable {ε : Type}

theorem find_insert_self (c : Cache) (k : String) (v : UsageHistory) :
    (c.insert k v).find k = some v := by
  simp [Cache.insert, Cache.find]

theorem ingest_find_isSome_mono (entries : List Entry) (c : Cache) (k : String)
    (h : (c.find k).isSome) : ((ingest entries c).find k).isSome := by
  induction entries generalizing c with
  | nil => exact h
  | cons e rest ih =>
    apply ih
    simp only [Cache.insert, Cache.find]
    split
    · simp
    · exact h

theorem ingest_find_isSome_of_mem (entries : List Entry) (c : Cache) (e : Entry)
    (he : e ∈ entries) : ((ingest entries c).find e.date).isSome := by
  induction entries generalizing c with
  | nil => cases he
  | cons e₀ rest ih =>
    have hstep : ingest (e₀ :: rest) c =
        ingest rest (c.insert e₀.date ⟨e₀.date, e₀.download, e₀.upload⟩) := rfl
    rw [hstep]
    rcases List.mem_cons.mp he with h | h
    · subst h
      apply ingest_find_isSome_mono
      rw [find_insert_self]
      rfl
    · exact ih _ h

theorem ingest_find_of_not_mem (entries : List Entry) (c : Cache) (k : String)
    (h : ∀ e ∈ entries, e.date ≠ k) : (ingest entries c).find k = c.find k := by
  induction entries generalizing c with
  | nil => rfl
  | cons e rest ih =>
    have hk : k ≠ e.date := fun hek => h e (List.mem_cons_self e rest) hek.symm
    rw [ingest, List.foldl_cons]
    rw [show ((rest.foldl (fun acc entry =>
        acc.insert entry.date ⟨entry.date, entry.download, entry.upload⟩)
        (c.insert e.date ⟨e.date, e.download, e.upload⟩))) =
      ingest rest (c.insert e.date ⟨e.date, e.download, e.upload⟩) from rfl]
    rw [ih _ (fun e' he' => h e' (List.mem_cons_of_mem e he'))]
    simp [Cache.insert, Cache.find, hk]

theorem ingest_valid (entries : List Entry) (c : Cache)
    (hc : ValidCache c) (hes : ∀ e ∈ entries, (matchFullKey e.date).isSome = true) :
    ValidCache (ingest entries c) := by
  induction entries generalizing c with
  | nil => exact hc
  | cons e rest ih =>
    apply ih
    · intro p hp
      rcases List.mem_cons.mp hp with h | h
      · subst h
        exact hes e (List.mem_cons_self e rest)
      · exact hc p h
    · exact fun e' he' => hes e' (List.mem_cons_of_mem e he')

theorem tryGetDate_of_hit (fetch : Int → Int → Except ε (List Entry))
    (rolloverDay : Int) (st : St) (key : String) (u : UsageHistory)
    (h : st.cache.find key = some u) :
    tryGetDate fetch rolloverDay st key = (.ok (some u), st) := by
  unfold tryGetDate
  rw [h]

theorem getItem_day (fetch : Int → Int → Except ε (List Entry))
    (rolloverDay : Int) (st : St) (key : String) (y m d : Nat)
    (hk : matchGetKey key = some (y, some m, some d)) (hm : m ≠ 0) (hd : d ≠ 0) :
    getItem fetch rolloverDay st key = dayQuery fetch rolloverDay y m d st := by
  unfold getItem
  rw [hk]
  simp [hm, hd]

theorem tryGetDate_of_miss (fetch : Int → Int → Except ε (List Entry))
    (rolloverDay : Int) (st : St) (key : String) (y m d : Nat)
    (hmiss : st.cache.find key = none)
    (hfull : matchFullKey key = some (y, m, d)) :
    tryGetDate fetch rolloverDay st key =
      match fetch (resolveMonth rolloverDay y m d).1
          (resolveMonth rolloverDay y m d).2 with
      | .error e => (.error (.fetchErr e), ⟨st.cache, st.fetchCount + 1⟩)
      | .ok entries =>
        match (ingest entries st.cache).find key with
        | some v => (.ok (some v), ⟨ingest entries st.cache, st.fetchCount + 1⟩)
        | none => (.ok none, ⟨ingest entries st.cache, st.fetchCount + 1⟩) := by
  unfold tryGetDate
  rw [hmiss, hfull]

theorem tryGetDate_of_miss_err (fetch : Int → Int → Except ε (List Entry))
    (rolloverDay : Int) (st : St) (key : String) (y m d : Nat) (e : ε)
    (hmiss : st.cache.find key = none)
    (hfull : matchFullKey key = some (y, m, d))
    (hfail : fetch (resolveMonth rolloverDay y m d).1
      (resolveMonth rolloverDay y m d).2 = .error e) :
    tryGetDate fetch rolloverDay st key =
      (.error (.fetchErr e), ⟨st.cache, st.fetchCount + 1⟩) := by
  rw [tryGetDate_of_miss fetch rolloverDay st key y m d hmiss hfull, hfail]

theorem tryGetDate_of_miss_ok (fetch : Int → Int → Except ε (List Entry))
    (rolloverDay : Int) (st : St) (key : String) (y m d : Nat)
    (entries : List Entry)
    (hmiss : st.cache.find key = none)
    (hfull : matchFullKey key = some (y, m, d))
    (hfetch : fetch (resolveMonth rolloverDay y m d).1
      (resolveMonth rolloverDay y m d).2 = .ok entries) :
    tryGetDate fetch rolloverDay st key =
      match (ingest entries st.cache).find key with
      | some v => (.ok (some v), ⟨ingest entries st.cache, st.fetchCount + 1⟩)
      | none => (.ok none, ⟨ingest entries st.cache, st.fetchCount + 1⟩) := by
  rw [tryGetDate_of_miss fetch rolloverDay st key y m d hmiss hfull, hfetch]

theorem tryGetDate_of_bad_key (fetch : Int → Int → Except ε (List Entry))
    (rolloverDay : Int) (st : St) (key : String)
    (hmiss : st.cache.find key = none)
    (hfull : matchFullKey key = none) :
    tryGetDate fetch rolloverDay st key = (.error .attributeError, st) := by
  unfold tryGetDate
  rw [hmiss, hfull]

theorem runDays_cons (fetch : Int → Int → Except ε (List Entry))
    (rolloverDay : Int) (year month d : Nat) (rest : List Nat) (st : St)
    (acc : List UsageHistory) :
    runDays fetch rolloverDay year month (d :: rest) st acc =
      match tryGetDate fetch rolloverDay st (keyFormat year month d) with
      | (.error e, st₁) => (.error e, st₁)
      | (.ok usage, st₁) =>
        runDays fetch rolloverDay year month rest st₁ (acc ++ usage.toList) := by
  rfl

theorem runMonths_cons_ok (fetch : Int → Int → Except ε (List Entry))
    (rolloverDay : Int) (year m : Nat) (rest : List Nat) (st : St)
    (acc : List UsageHistory) (wn : Nat × Nat)
    (hmr : monthrange (ε := ε) year m = .ok wn) :
    runMonths fetch rolloverDay year (m :: rest) st acc =
      match runDays fetch rolloverDay year m [wn.1, wn.2] st acc with
      | (.error e, st₁) => (.error e, st₁)
      | (.ok acc₁, st₁) => runMonths fetch rolloverDay year rest st₁ acc₁ := by
  have h : runMonths fetch rolloverDay year (m :: rest) st acc =
      match monthrange (ε := ε) year m with
      | .error e => (.error e, st)
      | .ok wn =>
        match runDays fetch rolloverDay year m [wn.1, wn.2] st acc with
        | (.error e, st₁) => (.error e, st₁)
        | (.ok acc₁, st₁) => runMonths fetch rolloverDay year rest st₁ acc₁ := rfl
  rw [h, hmr]

theorem getItem_keyErr (fetch : Int → Int → Except ε (List Entry))
    (rolloverDay : Int) (st : St) (key : String)
    (hk : matchGetKey key = none) :
    getItem fetch rolloverDay st key = (.error .keyError, st) := by
  unfold getItem
  rw [hk]

theorem getItem_year_none (fetch : Int → Int → Except ε (List Entry))
    (rolloverDay : Int) (st : St) (key : String) (y : Nat) (dOpt : Option Nat)
    (hk : matchGetKey key = some (y, none, dOpt)) :
    getItem fetch rolloverDay st key = yearQuery fetch rolloverDay y st := by
  unfold getItem
  rw [hk]

theorem getItem_year_zero (fetch : Int → Int → Except ε (List Entry))
    (rolloverDay : Int) (st : St) (key : String) (y : Nat) (dOpt : Option Nat)
    (hk : matchGetKey key = some (y, some 0, dOpt)) :
    getItem fetch rolloverDay st key = yearQuery fetch rolloverDay y st := by
  unfold getItem
  rw [hk]
  simp

theorem getItem_month_none (fetch : Int → Int → Except ε (List Entry))
    (rolloverDay : Int) (st : St) (key : String) (y m : Nat)
    (hk : matchGetKey key = some (y, some m, none)) (hm : m ≠ 0) :
    getItem fetch rolloverDay st key = monthQuery fetch rolloverDay y m st := by
  unfold getItem
  rw [hk]
  simp [hm]

theorem getItem_month_zero (fetch : Int → Int → Except ε (List Entry))
    (rolloverDay : Int) (st : St) (key : String) (y m : Nat)
    (hk : matchGetKey key = some (y, some m, some 0)) (hm : m ≠ 0) :
    getItem fetch rolloverDay st key = monthQuery fetch rolloverDay y m st := by
  unfold getItem
  rw [hk]
  simp [hm]

end Lemmas

/-- Claim C2: for a full-date lookup of an uncached date, the (year, month)
pair handed to the fetch endpoint is the previous calendar month (wrapping
January to December of the prior year) when the day-of-month is strictly below
the rollover day, and the date's own (year, month) otherwise. Observed through
a probe collaborator that reports the pair it was asked for. -/
theorem claim_C2 (rolloverDay : Int) (st : St) (key : String) (y m d : Nat)
    (hm : 1 ≤ m)
    (hmiss : st.cache.find key = none)
    (hkey : matchFullKey key = some (y, m, d)) :
    tryGetDate pairProbe rolloverDay st key =
      (.error (.fetchErr
        (if (d : Int) < rolloverDay then
          (if m = 1 then ((y : Int) - 1, 12) else ((y : Int), (m : Int) - 1))
        else ((y : Int), (m : Int)))),
       ⟨st.cache, st.fetchCount + 1⟩) := by
  unfold tryGetDate pairProbe
  rw [hmiss, hkey]
  unfold resolveMonth
  by_cases hlt : (d : Int) < rolloverDay
  · by_cases h1 : m = 1
    · subst h1
      simp [hlt]
    · have h1' : 1 < m := lt_of_le_of_ne hm (Ne.symm h1)
      simp [hlt, h1, h1']
  · simp [hlt]

/-- Witness for claim C2 at rollover day 28: July 5th resolves to June, and
January 5th wraps to December of the previous year. -/
theorem claim_C2_witness :
    tryGetDate pairProbe 28 ⟨[], 0⟩ "2024-07-05" =
      (.error (.fetchErr (2024, 6)), ⟨[], 1⟩) ∧
    tryGetDate pairProbe 28 ⟨[], 0⟩ "2024-01-05" =
      (.error (.fetchErr (2023, 12)), ⟨[], 1⟩) := by
  constructor
  · have h := claim_C2 28 ⟨[], 0⟩ "2024-07-05" 2024 7 5 (by decide) rfl (by decide)
    simpa using h
  · have h := claim_C2 28 ⟨[], 0⟩ "2024-01-05" 2024 1 5 (by decide) rfl (by decide)
    simpa using h

/-- Claim C5: when the fetch collaborator fails on a full-date lookup, the
failure surfaces from `get` unchanged (as the same error value), and the cache
is exactly what it was before the call. -/
theorem claim_C5 {ε : Type} (fetch : Int → Int → Except ε (List Entry))
    (rolloverDay : Int) (st : St) (key : String) (y m d : Nat) (e : ε)
    (hk : matchGetKey key = some (y, some m, some d)) (hm : m ≠ 0) (hd : d ≠ 0)
    (hmiss : st.cache.find (keyFormat y m d) = none)
    (hfull : matchFullKey (keyFormat y m d) = some (y, m, d))
    (hfail : fetch (resolveMonth rolloverDay y m d).1
      (resolveMonth rolloverDay y m d).2 = .error e) :
    getItem fetch rolloverDay st key =
      (.error (.fetchErr e), ⟨st.cache, st.fetchCount + 1⟩) := by
  rw [getItem_day fetch rolloverDay st key y m d hk hm hd]
  unfold dayQuery
  rw [tryGetDate_of_miss_err fetch rolloverDay st _ y m d e hmiss hfull hfail]

/-- Witness for claim C5: an HTTP 503 from the collaborator surfaces as-is and
the (empty) cache stays empty. -/
theorem claim_C5_witness :
    getItem (fun _ _ => .error 503) 28 ⟨[], 0⟩ "2024-07-05" =
      (.error (.fetchErr 503), ⟨[], 1⟩) :=
  claim_C5 (fun _ _ => .error 503) 28 ⟨[], 0⟩ "2024-07-05" 2024 7 5 503
    (by decide) (by decide) (by decide) rfl (by decide) rfl

/-- Claim C7: a full-date lookup whose resolved month response holds no entry
for that day returns the empty list, not an error (the response is still
ingested and the fetch counted). -/
theorem claim_C7 {ε : Type} (fetch : Int → Int → Except ε (List Entry))
    (rolloverDay : Int) (st : St) (key : String) (y m d : Nat)
    (entries : List Entry)
    (hk : matchGetKey key = some (y, some m, some d)) (hm : m ≠ 0) (hd : d ≠ 0)
    (hmiss : st.cache.find (keyFormat y m d) = none)
    (hfull : matchFullKey (keyFormat y m d) = some (y, m, d))
    (hfetch : fetch (resolveMonth rolloverDay y m d).1
      (resolveMonth rolloverDay y m d).2 = .ok entries)
    (habsent : ∀ e ∈ entries, e.date ≠ keyFormat y m d) :
    getItem fetch rolloverDay st key =
      (.ok [], ⟨ingest entries st.cache, st.fetchCount + 1⟩) := by
  rw [getItem_day fetch rolloverDay st key y m d hk hm hd]
  unfold dayQuery
  rw [tryGetDate_of_miss_ok fetch rolloverDay st _ y m d entries hmiss hfull hfetch,
    ingest_find_of_not_mem entries st.cache _ habsent, hmiss]

/-- Witness for claim C7: the response holds only 2024-06-28, so the lookup of
2024-07-05 answers with the empty list. -/
theorem claim_C7_witness :
    getItem sparseFetch 28 ⟨[], 0⟩ "2024-07-05" =
      (.ok [], ⟨ingest [⟨"2024-06-28", 5, 6⟩] [], 1⟩) :=
  claim_C7 sparseFetch 28 ⟨[], 0⟩ "2024-07-05" 2024 7 5 [⟨"2024-06-28", 5, 6⟩]
    (by decide) (by decide) (by decide) rfl (by decide) rfl (by decide)

/-- Claim C9: `get` normalizes the key before consulting the cache, so two key
spellings with the same parsed year, month and day groups (such as a 1-digit
and a zero-padded month or day) behave identically on every cache state. -/
theorem claim_C9 {ε : Type} (fetch : Int → Int → Except ε (List Entry))
    (rolloverDay : Int) (st : St) (key₁ key₂ : String)
    (h : matchGetKey key₁ = matchGetKey key₂) :
    getItem fetch rolloverDay st key₁ = getItem fetch rolloverDay st key₂ := by
  unfold getItem
  rw [h]

/-- Witness for claim C9: `get` on "2024-7-5" and on "2024-07-05" agree on a
cache holding the padded key. -/
theorem claim_C9_witness :
    getItem pairProbe 28 ⟨[("2024-07-05", sampleUsage)], 0⟩ "2024-7-5" =
      getItem pairProbe 28 ⟨[("2024-07-05", sampleUsage)], 0⟩ "2024-07-05" :=
  claim_C9 pairProbe 28 ⟨[("2024-07-05", sampleUsage)], 0⟩ "2024-7-5" "2024-07-05"
    (by decide)

/-- Claim C10: a full-date `get` whose normalized date is already cached
returns that cached record and leaves the state untouched: same cache, and no
fetch (the fetch counter is unchanged). -/
theorem claim_C10 {ε : Type} (fetch : Int → Int → Except ε (List Entry))
    (rolloverDay : Int) (st : St) (key : String) (y m d : Nat)
    (u : UsageHistory)
    (hk : matchGetKey key = some (y, some m, some d)) (hm : m ≠ 0) (hd : d ≠ 0)
    (hhit : st.cache.find (keyFormat y m d) = some u) :
    getItem fetch rolloverDay st key = (.ok [u], st) := by
  rw [getItem_day fetch rolloverDay st key y m d hk hm hd]
  unfold dayQuery
  rw [tryGetDate_of_hit fetch rolloverDay st _ u hhit]

/-- Witness for claim C10: a cached 2024-07-05 is returned as-is with the
state unchanged, even though every fetch would fail. -/
theorem claim_C10_witness :
    getItem pairProbe 28 ⟨[("2024-07-05", sampleUsage)], 3⟩ "2024-07-05" =
      (.ok [sampleUsage], ⟨[("2024-07-05", sampleUsage)], 3⟩) :=
  claim_C10 pairProbe 28 ⟨[("2024-07-05", sampleUsage)], 3⟩ "2024-07-05" 2024 7 5
    sampleUsage (by decide) (by decide) (by decide) (by decide)

/-- Counterexample to claim C3 as stated: for the uncached valid full-date key
2024-07-05 whose month response holds no entry for it, each of the two `get`
calls fetches, so two calls make two fetches, not one. -/
theorem claim_C3_counterexample :
    getItem emptyFetch 28 ⟨[], 0⟩ "2024-07-05" = (.ok [], ⟨[], 1⟩) ∧
    getItem emptyFetch 28 ⟨[], 1⟩ "2024-07-05" = (.ok [], ⟨[], 2⟩) ∧
    (2 : Nat) ≠ 1 := by
  refine ⟨rfl, rfl, by decide⟩

/-- Claim C3 as amended: for an uncached full-date key whose normalized form
round-trips through the parser and whose resolved month response does contain
the day, the first `get` makes exactly one fetch and ingests every entry of
the response (each response date is cached afterwards, not only the requested
one), and the second `get` returns the same answer from the cache with no
further fetch (the state after the second call is the state after the first).
-/
theorem claim_C3 {ε : Type} (fetch : Int → Int → Except ε (List Entry))
    (rolloverDay : Int) (st : St) (key : String) (y m d : Nat)
    (entries : List Entry)
    (hk : matchGetKey key = some (y, some m, some d)) (hm : m ≠ 0) (hd : d ≠ 0)
    (hmiss : st.cache.find (keyFormat y m d) = none)
    (hfull : matchFullKey (keyFormat y m d) = some (y, m, d))
    (hfetch : fetch (resolveMonth rolloverDay y m d).1
      (resolveMonth rolloverDay y m d).2 = .ok entries)
    (hhit : ∃ e ∈ entries, e.date = keyFormat y m d) :
    ∃ u st₁,
      getItem fetch rolloverDay st key = (.ok [u], st₁) ∧
      st₁.cache = ingest entries st.cache ∧
      st₁.fetchCount = st.fetchCount + 1 ∧
      (∀ e ∈ entries, (st₁.cache.find e.date).isSome) ∧
      getItem fetch rolloverDay st₁ key = (.ok [u], st₁) := by
  obtain ⟨e, he, hedate⟩ := hhit
  have hsome : ((ingest entries st.cache).find (keyFormat y m d)).isSome := by
    have h := ingest_find_isSome_of_mem entries st.cache e he
    rwa [hedate] at h
  obtain ⟨u, hu⟩ := Option.isSome_iff_exists.mp hsome
  refine ⟨u, ⟨ingest entries st.cache, st.fetchCount + 1⟩, ?_, rfl, rfl, ?_, ?_⟩
  · rw [getItem_day fetch rolloverDay st key y m d hk hm hd]
    unfold dayQuery
    rw [tryGetDate_of_miss_ok fetch rolloverDay st _ y m d entries hmiss hfull
      hfetch, hu]
  · intro e₁ he₁
    exact ingest_find_isSome_of_mem entries st.cache e₁ he₁
  · rw [getItem_day fetch rolloverDay _ key y m d hk hm hd]
    unfold dayQuery
    rw [tryGetDate_of_hit fetch rolloverDay _ _ u hu]

/-- Witness for the amended claim C3: rollover day 28, empty cache, key
2024-07-05; the June 2024 response holds 2024-06-28 and 2024-07-05. -/
theorem claim_C3_witness :
    ∃ u st₁,
      getItem juneFetch 28 ⟨[], 0⟩ "2024-07-05" = (.ok [u], st₁) ∧
      st₁.cache = ingest [⟨"2024-06-28", 10, 1⟩, ⟨"2024-07-05", 42, 7⟩] [] ∧
      st₁.fetchCount = 0 + 1 ∧
      (∀ e ∈ [Entry.mk "2024-06-28" 10 1, Entry.mk "2024-07-05" 42 7],
        (st₁.cache.find e.date).isSome) ∧
      getItem juneFetch 28 st₁ "2024-07-05" = (.ok [u], st₁) :=
  claim_C3 juneFetch 28 ⟨[], 0⟩ "2024-07-05" 2024 7 5
    [⟨"2024-06-28", 10, 1⟩, ⟨"2024-07-05", 42, 7⟩]
    (by decide) (by decide) (by decide) rfl (by decide) rfl
    ⟨⟨"2024-07-05", 42, 7⟩, by decide⟩

/-- Counterexample to claim C4 as stated: "2024-13" matches the accepted
year-month shape of `__getitem__` (1-2 digit month group), so `get` does not
raise the `MalformedKey` error (`KeyError`); it reaches
`calendar.monthrange(2024, 13)`, which raises `IllegalMonthError` instead
(still with zero fetches: the probe collaborator was never consulted). -/
theorem claim_C4_counterexample :
    getItem pairProbe 28 ⟨[], 0⟩ "2024-13" = (.error .illegalMonth, ⟨[], 0⟩) ∧
    (PyErr.illegalMonth : PyErr (Int × Int)) ≠ .keyError := by
  refine ⟨rfl, by decide⟩

/-- Claim C4 as amended: "abcd" and "2024-02-30-01" fail with the
`MalformedKey` error (`KeyError`) for both `get` and `set`; "2024-13" fails
with `KeyError` for `set`, while for `get` it matches the year-month shape and
fails with `IllegalMonthError` from the calendar day-range computation. All
six calls happen before any I/O and trigger zero fetches: the states keep
fetch count 0 and the always-failing probe collaborator is never reached. -/
theorem claim_C4 :
    getItem pairProbe 28 ⟨[], 0⟩ "abcd" = (.error .keyError, ⟨[], 0⟩) ∧
    getItem pairProbe 28 ⟨[], 0⟩ "2024-02-30-01" = (.error .keyError, ⟨[], 0⟩) ∧
    setItem (ε := Int × Int) ⟨[], 0⟩ "abcd" sampleUsage =
      (.error .keyError, ⟨[], 0⟩) ∧
    setItem (ε := Int × Int) ⟨[], 0⟩ "2024-13" sampleUsage =
      (.error .keyError, ⟨[], 0⟩) ∧
    setItem (ε := Int × Int) ⟨[], 0⟩ "2024-02-30-01" sampleUsage =
      (.error .keyError, ⟨[], 0⟩) ∧
    getItem pairProbe 28 ⟨[], 0⟩ "2024-13" = (.error .illegalMonth, ⟨[], 0⟩) := by
  refine ⟨rfl, rfl, rfl, rfl, rfl, rfl⟩


/-- Counterexample to claim C6 as stated: "0024-01-05" is a full-date key of
exact shape YYYY-MM-DD, and `set` accepts it, but the following `get` rebuilds
the lookup key as "24-01-05" (Python `str(24)` drops the leading zeros), misses
the cache, fails `_key_regex` inside `_try_get_date`, and raises
`AttributeError` instead of returning the single-element list. -/
theorem claim_C6_counterexample :
    setItem (ε := Int × Int) ⟨[], 0⟩ "0024-01-05" ⟨"0024-01-05", 1, 2⟩ =
      (.ok (), ⟨[("0024-01-05", ⟨"0024-01-05", 1, 2⟩)], 0⟩) ∧
    getItem pairProbe 28 ⟨[("0024-01-05", ⟨"0024-01-05", 1, 2⟩)], 0⟩
      "0024-01-05" =
      (.error .attributeError, ⟨[("0024-01-05", ⟨"0024-01-05", 1, 2⟩)], 0⟩) ∧
    (Except.error .attributeError :
        Except (PyErr (Int × Int)) (List UsageHistory)) ≠
      .ok [⟨"0024-01-05", 1, 2⟩] := by
  refine ⟨rfl, rfl, fun h => Except.noConfusion h⟩

/-- Claim C6 as amended: for every full-date key of exact shape YYYY-MM-DD
that is its own normalized form (the year has no leading zero and the month
and day groups are nonzero), `set(K, V)` then `get(K)` returns exactly `[V]`,
and the `get` performs no fetch: the state after `get` is the state `set`
built, with the fetch counter untouched. -/
theorem claim_C6 {ε : Type} (fetch : Int → Int → Except ε (List Entry))
    (rolloverDay : Int) (st : St) (key : String) (y m d : Nat)
    (v : UsageHistory)
    (hk : matchGetKey key = some (y, some m, some d)) (hm : m ≠ 0) (hd : d ≠ 0)
    (hcanon : keyFormat y m d = key)
    (hfull : (matchFullKey key).isSome = true) :
    setItem (ε := ε) st key v =
      (.ok (), ⟨st.cache.insert key v, st.fetchCount⟩) ∧
    getItem fetch rolloverDay ⟨st.cache.insert key v, st.fetchCount⟩ key =
      (.ok [v], ⟨st.cache.insert key v, st.fetchCount⟩) := by
  constructor
  · unfold setItem
    rw [hfull]
    rfl
  · rw [getItem_day fetch rolloverDay _ key y m d hk hm hd]
    unfold dayQuery
    rw [hcanon,
      tryGetDate_of_hit fetch rolloverDay _ key v (find_insert_self st.cache key v)]

/-- Witness for the amended claim C6: setting then getting 2024-07-05 on an
empty cache returns exactly the stored record, with the always-failing probe
collaborator never consulted. -/
theorem claim_C6_witness :
    setItem (ε := Int × Int) ⟨[], 0⟩ "2024-07-05" ⟨"2024-07-05", 7, 9⟩ =
      (.ok (), ⟨[("2024-07-05", ⟨"2024-07-05", 7, 9⟩)], 0⟩) ∧
    getItem pairProbe 28 ⟨[("2024-07-05", ⟨"2024-07-05", 7, 9⟩)], 0⟩
      "2024-07-05" =
      (.ok [⟨"2024-07-05", 7, 9⟩], ⟨[("2024-07-05", ⟨"2024-07-05", 7, 9⟩)], 0⟩) :=
  claim_C6 pairProbe 28 ⟨[], 0⟩ "2024-07-05" 2024 7 5 ⟨"2024-07-05", 7, 9⟩
    (by decide) (by decide) (by decide) (by decide) (by decide)


set_option maxRecDepth 10000 in
/-- Claim C1 fails on the code (defect acknowledged by the spec): against a
collaborator serving every day of every queried calendar month (rollover day
1), the year query returns only 19 entries, none in December — the month loop
is `range(1, 12)` (months 1-11 only) and the day loop iterates the two
components of the `calendar.monthrange` tuple (first-weekday, day-count)
instead of the days, so each month contributes at most the two probed
pseudo-days; the month query "2023-02" likewise returns 2 entries instead of
the 28 days of February 2023. -/
theorem claim_C1_code_bug :
    (getItem oracleFetch 1 ⟨[], 0⟩ "2024").1.map
        (fun l => l.map UsageHistory.date) =
      .ok ["2024-01-31", "2024-02-03", "2024-02-29", "2024-03-04", "2024-03-31",
        "2024-04-30", "2024-05-02", "2024-05-31", "2024-06-05", "2024-06-30",
        "2024-07-31", "2024-08-03", "2024-08-31", "2024-09-06", "2024-09-30",
        "2024-10-01", "2024-10-31", "2024-11-04", "2024-11-30"] ∧
    (getItem oracleFetch 1 ⟨[], 0⟩ "2023-02").1.map
        (fun l => l.map UsageHistory.date) =
      .ok ["2023-02-02", "2023-02-28"] := by
  exact ⟨rfl, rfl⟩


theorem tryGetDate_valid {ε : Type} (fetch : Int → Int → Except ε (List Entry))
    (rolloverDay : Int) (st : St) (key : String)
    (hf : GoodFetch fetch) (hc : ValidCache st.cache) :
    ValidCache (tryGetDate fetch rolloverDay st key).2.cache := by
  cases hfind : st.cache.find key with
  | some v =>
    rw [tryGetDate_of_hit fetch rolloverDay st key v hfind]
    exact hc
  | none =>
    cases hkey : matchFullKey key with
    | none =>
      rw [tryGetDate_of_bad_key fetch rolloverDay st key hfind hkey]
      exact hc
    | some t =>
      obtain ⟨y, m, d⟩ := t
      cases hfetch : fetch (resolveMonth rolloverDay y m d).1
          (resolveMonth rolloverDay y m d).2 with
      | error e =>
        rw [tryGetDate_of_miss_err fetch rolloverDay st key y m d e hfind hkey hfetch]
        exact hc
      | ok entries =>
        rw [tryGetDate_of_miss_ok fetch rolloverDay st key y m d entries hfind hkey
          hfetch]
        have hv : ValidCache (ingest entries st.cache) :=
          ingest_valid entries st.cache hc (hf _ _ _ hfetch)
        cases hfind2 : (ingest entries st.cache).find key with
        | some v => exact hv
        | none => exact hv

theorem runDays_valid {ε : Type} (fetch : Int → Int → Except ε (List Entry))
    (rolloverDay : Int) (year month : Nat) (days : List Nat) (st : St)
    (acc : List UsageHistory)
    (hf : GoodFetch fetch) (hc : ValidCache st.cache) :
    ValidCache (runDays fetch rolloverDay year month days st acc).2.cache := by
  induction days generalizing st acc hc with
  | nil => exact hc
  | cons d rest ih =>
    rw [runDays_cons fetch rolloverDay year month d rest st acc]
    cases htd : tryGetDate fetch rolloverDay st (keyFormat year month d) with
    | mk res st₁ =>
      have h₁ : ValidCache st₁.cache := by
        have h := tryGetDate_valid fetch rolloverDay st (keyFormat year month d) hf hc
        rw [htd] at h
        exact h
      cases res with
      | error e => exact h₁
      | ok usage => exact ih st₁ (acc ++ usage.toList) h₁

theorem runMonths_valid {ε : Type} (fetch : Int → Int → Except ε (List Entry))
    (rolloverDay : Int) (year : Nat) (months : List Nat) (st : St)
    (acc : List UsageHistory)
    (hf : GoodFetch fetch) (hc : ValidCache st.cache) :
    ValidCache (runMonths fetch rolloverDay year months st acc).2.cache := by
  induction months generalizing st acc hc with
  | nil => exact hc
  | cons m rest ih =>
    cases hmr : monthrange (ε := ε) year m with
    | error e =>
      unfold runMonths
      rw [hmr]
      exact hc
    | ok wn =>
      rw [runMonths_cons_ok fetch rolloverDay year m rest st acc wn hmr]
      cases hrd : runDays fetch rolloverDay year m [wn.1, wn.2] st acc with
      | mk res st₁ =>
        have h₁ : ValidCache st₁.cache := by
          have h := runDays_valid fetch rolloverDay year m [wn.1, wn.2] st acc hf hc
          rw [hrd] at h
          exact h
        cases res with
        | error e => exact h₁
        | ok acc₁ => exact ih st₁ acc₁ h₁


theorem dayQuery_valid {ε : Type} (fetch : Int → Int → Except ε (List Entry))
    (rolloverDay : Int) (year month day : Nat) (st : St)
    (hf : GoodFetch fetch) (hc : ValidCache st.cache) :
    ValidCache (dayQuery fetch rolloverDay year month day st).2.cache := by
  unfold dayQuery
  cases htd : tryGetDate fetch rolloverDay st (keyFormat year month day) with
  | mk res st₁ =>
    have h₁ : ValidCache st₁.cache := by
      have h := tryGetDate_valid fetch rolloverDay st (keyFormat year month day) hf hc
      rw [htd] at h
      exact h
    cases res with
    | error e => exact h₁
    | ok usage => cases usage <;> exact h₁

theorem monthQuery_valid {ε : Type} (fetch : Int → Int → Except ε (List Entry))
    (rolloverDay : Int) (year month : Nat) (st : St)
    (hf : GoodFetch fetch) (hc : ValidCache st.cache) :
    ValidCache (monthQuery fetch rolloverDay year month st).2.cache := by
  unfold monthQuery
  cases hmr : monthrange (ε := ε) year month with
  | error e => exact hc
  | ok wn => exact runDays_valid fetch rolloverDay year month [wn.1, wn.2] st [] hf hc

theorem getItem_valid {ε : Type} (fetch : Int → Int → Except ε (List Entry))
    (rolloverDay : Int) (st : St) (key : String)
    (hf : GoodFetch fetch) (hc : ValidCache st.cache) :
    ValidCache (getItem fetch rolloverDay st key).2.cache := by
  cases hk : matchGetKey key with
  | none =>
    rw [getItem_keyErr fetch rolloverDay st key hk]
    exact hc
  | some t =>
    obtain ⟨y, mo, dayOpt⟩ := t
    cases mo with
    | none =>
      rw [getItem_year_none fetch rolloverDay st key y dayOpt hk]
      exact runMonths_valid fetch rolloverDay y (List.range' 1 11) st [] hf hc
    | some m =>
      by_cases hm : m = 0
      · subst hm
        rw [getItem_year_zero fetch rolloverDay st key y dayOpt hk]
        exact runMonths_valid fetch rolloverDay y (List.range' 1 11) st [] hf hc
      · cases dayOpt with
        | none =>
          rw [getItem_month_none fetch rolloverDay st key y m hk hm]
          exact monthQuery_valid fetch rolloverDay y m st hf hc
        | some d =>
          by_cases hd : d = 0
          · subst hd
            rw [getItem_month_zero fetch rolloverDay st key y m hk hm]
            exact monthQuery_valid fetch rolloverDay y m st hf hc
          · rw [getItem_day fetch rolloverDay st key y m d hk hm hd]
            exact dayQuery_valid fetch rolloverDay y m d st hf hc

theorem setItem_valid {ε : Type} (st : St) (key : String) (value : UsageHistory)
    (hc : ValidCache st.cache) :
    ValidCache (setItem (ε := ε) st key value).2.cache := by
  unfold setItem
  split
  next h =>
    intro p hp
    rcases List.mem_cons.mp hp with h₁ | h₁
    · rw [h₁]
      exact h
    · exact hc p h₁
  next h => exact hc

theorem runOp_valid {ε : Type} (fetch : Int → Int → Except ε (List Entry))
    (rolloverDay : Int) (st : St) (op : Op)
    (hf : GoodFetch fetch) (hc : ValidCache st.cache) :
    ValidCache (runOp fetch rolloverDay st op).cache := by
  cases op with
  | get key => exact getItem_valid fetch rolloverDay st key hf hc
  | set key value => exact setItem_valid st key value hc

/-- Claim C8: when the fetch collaborator honours the response contract of the
spec (every response entry carries a YYYY-MM-DD date), then after any sequence
of `get` and `set` operations — including all cache population done inside
`get` — every key present in the cache is a syntactically valid YYYY-MM-DD
date string. -/
theorem claim_C8 {ε : Type} (fetch : Int → Int → Except ε (List Entry))
    (rolloverDay : Int) (ops : List Op) (st : St)
    (hf : GoodFetch fetch) (hc : ValidCache st.cache) :
    ValidCache (runOps fetch rolloverDay ops st).cache := by
  induction ops generalizing st hc with
  | nil => exact hc
  | cons op rest ih =>
    exact ih (runOp fetch rolloverDay st op) (runOp_valid fetch rolloverDay st op hf hc)

/-- Witness for claim C8: a concrete contract-honouring collaborator, and a
run of a day get, a set and a year get from the empty cache. -/
theorem claim_C8_witness :
    GoodFetch sparseFetch ∧
    ValidCache (runOps sparseFetch 28
      [Op.get "2024-07-05", Op.set "2024-01-01" sampleUsage, Op.get "2024"]
      ⟨[], 0⟩).cache := by
  have hgf : GoodFetch sparseFetch := by
    intro y m entries h e he
    simp only [sparseFetch, Except.ok.injEq] at h
    subst h
    simp only [List.mem_singleton] at he
    subst he
    decide
  exact ⟨hgf, claim_C8 sparseFetch 28 _ ⟨[], 0⟩ hgf
    (fun p hp => absurd hp (List.not_mem_nil p))⟩


end Aussie
